import Mathlib

/-!
Verification of the DealFlow persistence and model-access adapters.

This file shallowly embeds the logic of `src/services/history.ts` and
`src/services/gemini.ts` in Lean and proves the specified properties of
that logic.

Two levels of embedding are used for the persistence adapter:

* a JSON-value level (`JVal`), which models JavaScript values including the
  `undefined` sentinel.  This is needed for `sanitizeForFirestore` and for
  the `JSON.stringify` / `JSON.parse` round trip that every localStorage
  read/write performs;
* a typed-record level (`RecM`), which models the records
  (`AnalysisResult`, `ChatSession`, `GenerationHistory`, all carrying an
  `id`, a `timestamp`, and further content) and the list manipulation the
  adapter performs on the local collections.  At this level the JSON round
  trip through localStorage is the identity, because typed records contain
  no `undefined` sentinel (this is justified at the `JVal` level, where
  `jround` is shown to preserve records without the sentinel).

External effects (the Firestore client, `crypto.randomUUID()`,
`Date.now()`) are passed in as explicit parameters: the outcome of a cloud
call is an `Except`/`Option` parameter, and fresh ids and the current time
are parameters of the save operations.
-/

set_option autoImplicit false

namespace DealFlow

/-! ## JSON value model

`JVal` models a JavaScript value as it appears in this code base:
`undefined`, `null`, booleans, numbers, strings, arrays and objects
(ordered field lists, as JavaScript preserves insertion order).
-/

mutual

inductive JVal where
  | undef : JVal
  | jnull : JVal
  | jbool : Bool → JVal
  | jnum : Int → JVal
  | jstr : String → JVal
  | jarr : JArr → JVal
  | jobj : JObj → JVal

inductive JArr where
  | nil : JArr
  | cons : JVal → JArr → JArr

inductive JObj where
  | nil : JObj
  | cons : String → JVal → JObj → JObj

end

deriving instance DecidableEq for JVal

deriving instance DecidableEq for JArr

deriving instance DecidableEq for JObj

/-- Tests whether a value is the `undefined` sentinel. -/
def isUndef : JVal → Bool
  | .undef => true
  | _ => false

/-- JavaScript truthiness of a value (`NaN` is not modelled). -/
def jsTruthy : JVal → Bool
  | .undef => false
  | .jnull => false
  | .jbool b => b
  | .jnum n => n != 0
  | .jstr s => s != ""
  | .jarr _ => true
  | .jobj _ => true

/-- Field access `o[key]`: the value of the first field named `key`,
`undefined` when absent. -/
def objGet : JObj → String → JVal
  | .nil, _ => .undef
  | .cons k v t, key => if k = key then v else objGet t key

/-- Object-literal update `\x7b...o, key: val\x7d`: replaces the value of the
first field named `key` in place (JavaScript keeps the original key
position), appending the field when absent. -/
def objSet : JObj → String → JVal → JObj
  | .nil, key, val => .cons key val .nil
  | .cons k v t, key, val =>
      if k = key then .cons k val t else .cons k v (objSet t key val)

mutual

/-- Embedding of `sanitizeForFirestore` (src/services/history.ts:17-29):
arrays are mapped recursively, objects drop every field whose value is
`undefined` and recurse into the kept values, and all other values are
returned unchanged. -/
def sanitizeV : JVal → JVal
  | .jarr l => .jarr (sanitizeArr l)
  | .jobj o => .jobj (sanitizeObj o)
  | v => v

/-- Array case of `sanitizeForFirestore`: `obj.map(v => sanitizeForFirestore(v))`.
Elements are mapped, never dropped, so an `undefined` element stays. -/
def sanitizeArr : JArr → JArr
  | .nil => .nil
  | .cons v t => .cons (sanitizeV v) (sanitizeArr t)

/-- Object case of `sanitizeForFirestore`: the `reduce` that skips
`undefined`-valued keys and sanitizes the kept values. -/
def sanitizeObj : JObj → JObj
  | .nil => .nil
  | .cons k v t =>
      if isUndef v then sanitizeObj t else .cons k (sanitizeV v) (sanitizeObj t)

end

mutual

/-- Model of `JSON.parse(JSON.stringify(v))` for a value kept in its
context: arrays turn `undefined` elements into `null`, objects drop
`undefined`-valued fields.  Every localStorage write/read pair in
`src/services/history.ts` applies this transformation. -/
def jroundV : JVal → JVal
  | .jarr l => .jarr (jroundArr l)
  | .jobj o => .jobj (jroundObj o)
  | v => v

/-- JSON round trip of an array: an `undefined` element is serialized as
`null`; other elements are round-tripped recursively. -/
def jroundArr : JArr → JArr
  | .nil => .nil
  | .cons v t =>
      .cons (if isUndef v then .jnull else jroundV v) (jroundArr t)

/-- JSON round trip of an object: `undefined`-valued fields are dropped;
other fields are round-tripped recursively. -/
def jroundObj : JObj → JObj
  | .nil => .nil
  | .cons k v t =>
      if isUndef v then jroundObj t else .cons k (jroundV v) (jroundObj t)

end

mutual

/-- Holds when no array (sequence) anywhere inside the value contains the
`undefined` sentinel as an element. -/
def noUndefInSeqV : JVal → Bool
  | .jarr l => noUndefInSeqArr l
  | .jobj o => noUndefInSeqObj o
  | _ => true

/-- Array case of `noUndefInSeqV`. -/
def noUndefInSeqArr : JArr → Bool
  | .nil => true
  | .cons v t => !isUndef v && noUndefInSeqV v && noUndefInSeqArr t

/-- Object case of `noUndefInSeqV` (an `undefined` field value is allowed
here: it is a field, not a sequence element). -/
def noUndefInSeqObj : JObj → Bool
  | .nil => true
  | .cons _ v t => noUndefInSeqV v && noUndefInSeqObj t

end

mutual

/-- Holds when no object field anywhere inside the value has the
`undefined` sentinel as its value. -/
def noUndefFieldV : JVal → Bool
  | .jarr l => noUndefFieldArr l
  | .jobj o => noUndefFieldObj o
  | _ => true

/-- Array case of `noUndefFieldV`. -/
def noUndefFieldArr : JArr → Bool
  | .nil => true
  | .cons v t => noUndefFieldV v && noUndefFieldArr t

/-- Object case of `noUndefFieldV`. -/
def noUndefFieldObj : JObj → Bool
  | .nil => true
  | .cons _ v t => !isUndef v && noUndefFieldV v && noUndefFieldObj t

end

mutual

/-- Definition written from the specification text: the value with every
field whose value is the `undefined` sentinel recursively removed, through
nested objects and sequences.  Stated separately from `sanitizeV` so the
two can be compared. -/
def specStripUndefV : JVal → JVal
  | .jarr l => .jarr (specStripUndefArr l)
  | .jobj o => .jobj (specStripUndefObj o)
  | v => v

/-- Sequence case of the specification text: removal recurses through
sequences (elements are not fields, so none is removed here). -/
def specStripUndefArr : JArr → JArr
  | .nil => .nil
  | .cons v t => .cons (specStripUndefV v) (specStripUndefArr t)

/-- Object case of the specification text: every `undefined`-valued field
is removed and removal recurses into the remaining values. -/
def specStripUndefObj : JObj → JObj
  | .nil => .nil
  | .cons k v t =>
      if isUndef v then specStripUndefObj t
      else .cons k (specStripUndefV v) (specStripUndefObj t)

end

def JArr.take : Nat → JArr → JArr
  | 0, _ => .nil
  | _, .nil => .nil
  | n + 1, .cons v t => .cons v (JArr.take n t)

def JArr.headOpt : JArr → Option JVal
  | .nil => none
  | .cons v _ => some v

def JArr.length : JArr → Nat
  | .nil => 0
  | .cons _ t => t.length + 1

/-! ## JSON-level model of the analysis history (src/services/history.ts)

`saveToHistory` builds `newEntry` by spreading the result and defaulting
`id` (`result.id || crypto.randomUUID()`) and `timestamp`
(`result.timestamp || Date.now()`); the fresh uuid and the current time
are parameters here.  The local mirror is
`[newEntry, ...currentLocal].slice(0, 10)`, written with `JSON.stringify`
and read back with `JSON.parse`, hence the `jroundArr`.  The local slot is
modelled as the parsed value of the stored string.
-/

/-- Embedding of the `newEntry` construction in `saveToHistory`
(src/services/history.ts:86-90): spread of `result` with `id` and
`timestamp` overridden by their truthy-or-default values.  Spreading a
non-object produces an object holding only the two literal fields. -/
def mkNewEntryJ (result : JVal) (uuid : String) (now : Int) : JVal :=
  match result with
  | .jobj o =>
      let idv := if jsTruthy (objGet o "id") then objGet o "id" else .jstr uuid
      let tsv := if jsTruthy (objGet o "timestamp") then objGet o "timestamp"
                 else .jnum now
      .jobj (objSet (objSet o "id" idv) "timestamp" tsv)
  | _ =>
      .jobj (.cons "id" (.jstr uuid) (.cons "timestamp" (.jnum now) .nil))

/-- Local-mirror part of `saveToHistory` (src/services/history.ts:93-97):
prepend the new entry to the parsed local list, cap at 10, and store it as
JSON (modelled by applying the round trip to the stored value). -/
def saveToHistoryLocalJ (result : JVal) (uuid : String) (now : Int)
    (slot : JArr) : JArr :=
  jroundArr (JArr.take 10 (.cons (mkNewEntryJ result uuid now) slot))

/-- Embedding of `getHistory` (src/services/history.ts:75-83) at the JSON
level.  The cloud query of `getFromDatabase` is a parameter: `cloudActive`
is `isRealBackendAvailable() && auth.currentUser`, and `outcome` is the
result of the Firestore query (`Except.error` models a thrown error, which
`getFromDatabase` catches, returning the empty list).  The local slot is
the parsed stored value. -/
def getHistoryJ (cloudActive : Bool) (outcome : Except Unit JArr)
    (slot : JArr) : JArr :=
  let dbData := if cloudActive then
      (match outcome with
       | .ok docs => docs
       | .error _ => .nil)
    else .nil
  if 0 < dbData.length then dbData else slot

/-! ## Typed-record model of the persistence adapter

`RecM` stands for any of the three record kinds (`AnalysisResult`,
`ChatSession`, `GenerationHistory`): an `id`, a `timestamp`, and `content`
standing for all remaining fields.  The empty string models an
absent/empty (falsy) `id` and `0` an absent (falsy) `timestamp`.  Records
contain no `undefined` sentinel, so `sanitizeForFirestore` and the
localStorage JSON round trip are the identity on them and are elided at
this level (see the `JVal` development for both facts).
-/

structure RecM where
  id : String
  timestamp : Int
  content : Nat
deriving DecidableEq, Repr

/-- Cloud document store for one user and one collection: a list of
(document key, document) pairs, in insertion order. -/
abbrev CloudStoreM : Type := List (String × RecM)

/-- Firestore `setDoc`: stores the document under the given key,
overwriting the document previously stored under that key if any. -/
def setDocM (store : CloudStoreM) (key : String) (v : RecM) : CloudStoreM :=
  if store.any (fun kv => kv.1 == key) then
    store.map (fun kv => if kv.1 == key then (key, v) else kv)
  else store ++ [(key, v)]

/-- Embedding of `saveToDatabase` (src/services/history.ts:34-50).
`cloudActive` models `isRealBackendAvailable() && auth.currentUser`;
`writeThrows` models the Firestore write throwing, which the `catch`
swallows after logging, leaving the store unchanged.  When the cleaned
record has a truthy `id`, `setDoc` keyed by that id is used (overwrite),
otherwise `addDoc` with a store-assigned key `autoKey` (append).
Sanitization is the identity on `RecM` (no `undefined` fields). -/
def saveToDatabaseM (cloudActive writeThrows : Bool) (autoKey : String)
    (store : CloudStoreM) (r : RecM) : CloudStoreM :=
  if cloudActive then
    if writeThrows then store
    else if r.id != "" then setDocM store r.id r
    else store ++ [(autoKey, r)]
  else store

/-- Embedding of `mkNewEntry` defaulting at the typed level
(src/services/history.ts:86-90): `result.id || crypto.randomUUID()` and
`result.timestamp || Date.now()`. -/
def mkNewEntryM (r : RecM) (uuid : String) (now : Int) : RecM :=
  { r with
    id := if r.id != "" then r.id else uuid,
    timestamp := if r.timestamp != 0 then r.timestamp else now }

/-- Embedding of `saveToHistory` (src/services/history.ts:85-98): builds
the defaulted entry, performs the cloud write, and mirrors into the local
list with `[newEntry, ...currentLocal].slice(0, 10)`.  Returns the new
cloud store and the new local list. -/
def saveToHistoryM (cloudActive writeThrows : Bool) (uuid : String)
    (now : Int) (autoKey : String) (cloud : CloudStoreM)
    (slot : List RecM) (r : RecM) : CloudStoreM × List RecM :=
  let newEntry := mkNewEntryM r uuid now
  (saveToDatabaseM cloudActive writeThrows autoKey cloud newEntry,
   (newEntry :: slot).take 10)

/-- Embedding of `saveChatSession` (src/services/history.ts:110-125): the
session is written to the cloud as-is, and the local list is updated in
place when an entry with the same `id` exists (`findIndex` / assignment at
that index), else the session is prepended and the list capped at 5. -/
def saveChatSessionM (cloudActive writeThrows : Bool) (autoKey : String)
    (cloud : CloudStoreM) (slot : List RecM) (s : RecM) :
    CloudStoreM × List RecM :=
  (saveToDatabaseM cloudActive writeThrows autoKey cloud s,
   match slot.findIdx? (fun x => x.id == s.id) with
   | some i => slot.set i s
   | none => (s :: slot).take 5)

/-- Embedding of `saveGeneration` (src/services/history.ts:137-143): cloud
write of the record as-is, local prepend capped at 10. -/
def saveGenerationM (cloudActive writeThrows : Bool) (autoKey : String)
    (cloud : CloudStoreM) (slot : List RecM) (g : RecM) :
    CloudStoreM × List RecM :=
  (saveToDatabaseM cloudActive writeThrows autoKey cloud g,
   (g :: slot).take 10)

/-- Embedding of `getFromDatabase` (src/services/history.ts:52-71).  The
Firestore query (ordered by `timestamp` descending, capped at the limit,
each doc mapped to its data with the doc key as `id`) is modelled by the
`outcome` parameter holding the record list it produces; `Except.error`
models the query throwing, which is caught (logged unless the error code
is the expected offline/no-index condition) and turned into the empty
list.  When cloud mode is inactive the empty list is returned. -/
def getFromDatabaseM (cloudActive : Bool)
    (outcome : Except Unit (List RecM)) : List RecM :=
  if cloudActive then
    match outcome with
    | .ok docs => docs
    | .error _ => []
  else []

/-- Record kinds of the persistence adapter and their localStorage keys
(src/services/history.ts:5-7). -/
inductive HKind where
  | analyses
  | chats
  | generations
deriving DecidableEq, Repr

def localKeyOf : HKind → String
  | .analyses => "dealflow_history"
  | .chats => "dealflow_chats"
  | .generations => "dealflow_tools"

/-- Embedding of the `Load` operation for each kind (`getHistory`,
`getChatHistory`, `getGenerationHistory`, src/services/history.ts:75-135,
which are the same code modulo collection name and local key): cloud data
wins when non-empty, otherwise the parsed local slot for the kind is
returned (`stored ? JSON.parse(stored) : []`).  `localStore` maps a
localStorage key to its parsed contents, `none` when the key is unset. -/
def loadKindM (k : HKind) (cloudActive : Bool)
    (outcome : Except Unit (List RecM))
    (localStore : String → Option (List RecM)) : List RecM :=
  let dbData := getFromDatabaseM cloudActive outcome
  if 0 < dbData.length then dbData
  else (localStore (localKeyOf k)).getD []

/-! ## Model-access adapter (src/services/gemini.ts) -/

/-- One part of a chat turn, as `sendChatMessage` receives it:
`\x7b text?: string; inlineData?: any \x7d`.  The inline image payload is
modelled by an opaque string. -/
structure Part where
  text : Option String
  inlineData : Option String
deriving DecidableEq, Repr

/-- One turn of the chat history: `\x7b role: string; parts: [...] \x7d`. -/
structure Turn where
  role : String
  parts : List Part
deriving DecidableEq, Repr

/-- Model of the JavaScript string builtin `trim()`: the string with
leading and trailing whitespace characters removed. -/
def jsTrim (s : String) : String :=
  String.mk
    (((s.data.dropWhile Char.isWhitespace).reverse.dropWhile
        Char.isWhitespace).reverse)

/-- Part filter of the history sanitization in `sendChatMessage`
(src/services/gemini.ts:131-134): keep a part iff
`(p.text && p.text.trim().length > 0) || p.inlineData`. -/
def keepPart (p : Part) : Bool :=
  (match p.text with
   | some t => jsTrim t != ""
   | none => false) || p.inlineData.isSome

/-- First stage of the history sanitization (src/services/gemini.ts:131-134):
map every turn to its kept parts and drop turns whose part list became
empty. -/
def validHistoryOf (history : List Turn) : List Turn :=
  (history.map (fun item =>
      { role := item.role, parts := item.parts.filter keepPart })).filter
    (fun item => 0 < item.parts.length)

/-- Second stage (src/services/gemini.ts:136-139): the while-loop shifting
off leading turns whose role is not the user role. -/
def removeLeadingNonUser : List Turn → List Turn
  | [] => []
  | t :: rest => if t.role != "user" then removeLeadingNonUser rest else t :: rest

/-- History actually handed to `ai.chats.create` by `sendChatMessage`:
both sanitization stages composed. -/
def normalizeHistory (history : List Turn) : List Turn :=
  removeLeadingNonUser (validHistoryOf history)

/-- Part keep-condition as the claim words it: the part has non-whitespace
text content or image content. -/
def specKeepPart (p : Part) : Bool :=
  (jsTrim (p.text.getD "") != "") || p.inlineData.isSome

/-- History normalization as the claim words it: (1) remove from each turn
every part that has neither non-whitespace text nor image content, (2)
drop every turn whose part list is then empty, (3) drop leading turns
until the first remaining turn has role user. -/
def specNormalizeHistory (history : List Turn) : List Turn :=
  ((history.map (fun t => { t with parts := t.parts.filter specKeepPart })).filter
      (fun t => t.parts != [])).dropWhile (fun t => t.role != "user")

/-- Grounding citation as surfaced on the response:
`c.web` may be absent; `title` and `uri` are strings (the empty string
standing for an absent/empty, hence falsy, value). -/
structure WebInfo where
  title : String
  uri : String
deriving DecidableEq, Repr

structure Chunk where
  web : Option WebInfo
deriving DecidableEq, Repr

structure SearchLink where
  title : String
  uri : String
deriving DecidableEq, Repr

/-- Truthiness of `c.web?.uri` used by the filter in
`analyzeProductImage` (src/services/gemini.ts:75). -/
def chunkHasWebUri (c : Chunk) : Bool :=
  match c.web with
  | some w => w.uri != ""
  | none => false

/-- Mapping `c => (\x7b title: c.web.title, uri: c.web.uri \x7d)` applied after
the filter (src/services/gemini.ts:76). -/
def chunkToLink (c : Chunk) : SearchLink :=
  match c.web with
  | some w => ⟨w.title, w.uri⟩
  | none => ⟨"", ""⟩

/-- Parsed model output of `analyzeProductImage`: `id`, `timestamp` and
`searchLinks` are optional in the `AnalysisResult` interface
(src/unnamed/part_000); `body` stands for all remaining fields of the
parsed JSON. -/
structure AnalysisResultM where
  id : Option String
  timestamp : Option Int
  searchLinks : Option (List SearchLink)
  body : String
deriving DecidableEq, Repr

/-- Raw model response as `analyzeProductImage` consumes it:
`response.text` (absent or a string; the empty string is falsy) and
`response.candidates?.[0]?.groundingMetadata?.groundingChunks` collapsed
along the optional chain into one optional chunk list. -/
structure GenAIResponse where
  text : Option String
  chunks : Option (List Chunk)
deriving DecidableEq, Repr

/-- Embedding of the response handling of `analyzeProductImage`
(src/services/gemini.ts:67-80): throw when the text is falsy, parse the
JSON (`parse` models `JSON.parse` plus the cast; `none` models a parse
exception), then, when the grounding-chunk list is present (a present
empty array is truthy in JavaScript), set `searchLinks` to the web-URI
chunks mapped to title/uri pairs.  The request construction
(src/services/gemini.ts:16-66) only produces the response and is folded
into the parameters. -/
def analyzeProductImageM (resp : GenAIResponse)
    (parse : String → Option AnalysisResultM) :
    Except String AnalysisResultM :=
  match resp.text with
  | none => .error "No response from Gemini"
  | some t =>
      if t = "" then .error "No response from Gemini"
      else
        match parse t with
        | none => .error "JSON parse error"
        | some result =>
            match resp.chunks with
            | some cs =>
                .ok { result with
                      searchLinks :=
                        some ((cs.filter chunkHasWebUri).map chunkToLink) }
            | none => .ok result

/-- Inline payload of a response part in `generateCustomImage`:
`inlineData.mimeType` may be absent (or empty, hence falsy) and
`inlineData.data` is the base64 payload (empty models falsy/absent). -/
structure InlineImg where
  mimeType : Option String
  data : String
deriving DecidableEq, Repr

/-- One part of a response candidate's content. -/
structure GPart where
  inlineData : Option InlineImg
deriving DecidableEq, Repr

/-- One response candidate, with `content.parts` flattened. -/
structure Candidate where
  parts : List GPart
deriving DecidableEq, Repr

/-- Mime-type defaulting `part.inlineData.mimeType || 'image/png'`
(src/services/gemini.ts:172). -/
def mimeOrDefault : Option String → String
  | some m => if m != "" then m else "image/png"
  | none => "image/png"

/-- Loop body of `generateCustomImage` (src/services/gemini.ts:170-175):
return the first part whose `inlineData.data` is truthy, encoded as a
data URI. -/
def findInlineImage : List GPart → Option String
  | [] => none
  | p :: rest =>
      match p.inlineData with
      | some d =>
          if d.data != "" then
            some ("data:" ++ mimeOrDefault d.mimeType ++ ";base64," ++ d.data)
          else findInlineImage rest
      | none => findInlineImage rest

/-- Embedding of the response handling of `generateCustomImage`
(src/services/gemini.ts:168-178): when the candidate list is present and
non-empty, scan the first candidate's parts for inline image data;
otherwise, and when the scan finds none, return `none` (the JavaScript
`null`). -/
def generateCustomImageM (candidates : Option (List Candidate)) :
    Option String :=
  match candidates with
  | some (c :: _) => findInlineImage c.parts
  | _ => none

/-! ## Supporting lemmas -/

theorem objSet_get_self :
    ∀ (o : JObj) (k : String), jsTruthy (objGet o k) = true →
      objSet o k (objGet o k) = o
  | .nil, k, h => by simp [objGet, jsTruthy] at h
  | .cons key v t, k, h => by
      by_cases hk : key = k
      · subst hk
        simp [objGet, objSet]
      · simp only [objGet, objSet, if_neg hk] at h ⊢
        rw [objSet_get_self t k h]

mutual

theorem jround_eq_sanitizeV :
    ∀ v : JVal, noUndefInSeqV v = true → jroundV v = sanitizeV v
  | .undef, _ => rfl
  | .jnull, _ => rfl
  | .jbool _, _ => rfl
  | .jnum _, _ => rfl
  | .jstr _, _ => rfl
  | .jarr l, h => congrArg JVal.jarr (jround_eq_sanitizeArr l h)
  | .jobj o, h => congrArg JVal.jobj (jround_eq_sanitizeObj o h)

theorem jround_eq_sanitizeArr :
    ∀ l : JArr, noUndefInSeqArr l = true → jroundArr l = sanitizeArr l
  | .nil, _ => rfl
  | .cons v t, h => by
      simp only [noUndefInSeqArr, Bool.and_eq_true, Bool.not_eq_true'] at h
      simp only [jroundArr, sanitizeArr, h.1.1, Bool.false_eq_true, if_false]
      rw [jround_eq_sanitizeV v h.1.2, jround_eq_sanitizeArr t h.2]

theorem jround_eq_sanitizeObj :
    ∀ o : JObj, noUndefInSeqObj o = true → jroundObj o = sanitizeObj o
  | .nil, _ => rfl
  | .cons k v t, h => by
      simp only [noUndefInSeqObj, Bool.and_eq_true] at h
      cases hv : isUndef v with
      | true =>
          simp only [jroundObj, sanitizeObj, hv, if_true]
          exact jround_eq_sanitizeObj t h.2
      | false =>
          simp only [jroundObj, sanitizeObj, hv, Bool.false_eq_true, if_false]
          rw [jround_eq_sanitizeV v h.1, jround_eq_sanitizeObj t h.2]

end

theorem isUndef_sanitizeV (v : JVal) : isUndef (sanitizeV v) = isUndef v := by
  cases v <;> rfl

mutual

theorem noUndefField_sanitizeV :
    ∀ v : JVal, noUndefFieldV (sanitizeV v) = true
  | .undef => rfl
  | .jnull => rfl
  | .jbool _ => rfl
  | .jnum _ => rfl
  | .jstr _ => rfl
  | .jarr l => noUndefField_sanitizeArr l
  | .jobj o => noUndefField_sanitizeObj o

theorem noUndefField_sanitizeArr :
    ∀ l : JArr, noUndefFieldArr (sanitizeArr l) = true
  | .nil => rfl
  | .cons v t => by
      simp only [sanitizeArr, noUndefFieldArr, Bool.and_eq_true]
      exact ⟨noUndefField_sanitizeV v, noUndefField_sanitizeArr t⟩

theorem noUndefField_sanitizeObj :
    ∀ o : JObj, noUndefFieldObj (sanitizeObj o) = true
  | .nil => rfl
  | .cons k v t => by
      cases hv : isUndef v with
      | true =>
          simp only [sanitizeObj, hv, if_true]
          exact noUndefField_sanitizeObj t
      | false =>
          simp only [sanitizeObj, hv, Bool.false_eq_true, if_false,
            noUndefFieldObj, Bool.and_eq_true, Bool.not_eq_true']
          exact ⟨⟨by rw [isUndef_sanitizeV]; exact hv,
                  noUndefField_sanitizeV v⟩, noUndefField_sanitizeObj t⟩

end

mutual

theorem sanitize_eq_specStripV : ∀ v : JVal, sanitizeV v = specStripUndefV v
  | .undef => rfl
  | .jnull => rfl
  | .jbool _ => rfl
  | .jnum _ => rfl
  | .jstr _ => rfl
  | .jarr l => congrArg JVal.jarr (sanitize_eq_specStripArr l)
  | .jobj o => congrArg JVal.jobj (sanitize_eq_specStripObj o)

theorem sanitize_eq_specStripArr :
    ∀ l : JArr, sanitizeArr l = specStripUndefArr l
  | .nil => rfl
  | .cons v t => by
      simp only [sanitizeArr, specStripUndefArr]
      rw [sanitize_eq_specStripV v, sanitize_eq_specStripArr t]

theorem sanitize_eq_specStripObj :
    ∀ o : JObj, sanitizeObj o = specStripUndefObj o
  | .nil => rfl
  | .cons k v t => by
      cases hv : isUndef v with
      | true =>
          simp only [sanitizeObj, specStripUndefObj, hv, if_true]
          exact sanitize_eq_specStripObj t
      | false =>
          simp only [sanitizeObj, specStripUndefObj, hv, Bool.false_eq_true,
            if_false]
          rw [sanitize_eq_specStripV v, sanitize_eq_specStripObj t]

end

theorem mkNewEntryJ_truthy (o : JObj) (uuid : String) (now : Int)
    (hid : jsTruthy (objGet o "id") = true)
    (hts : jsTruthy (objGet o "timestamp") = true) :
    mkNewEntryJ (.jobj o) uuid now = .jobj o := by
  simp only [mkNewEntryJ, hid, hts, if_true]
  rw [objSet_get_self o "id" hid, objSet_get_self o "timestamp" hts]

theorem take_append_take {α : Type} (N : Nat) :
    ∀ (L : List α) (n : Nat) (M : List α), n ≤ N →
      (L ++ M.take N).take n = (L ++ M).take n := by
  intro L
  induction L with
  | nil =>
      intro n M h
      simp only [List.nil_append, List.take_take, Nat.min_eq_left h]
  | cons x L ih =>
      intro n M h
      cases n with
      | zero => rfl
      | succ m =>
          simp only [List.cons_append, List.take_succ_cons]
          rw [ih m M (Nat.le_of_succ_le h)]

theorem foldl_prepend_take {α β : Type} (g : β → α) (N : Nat) :
    ∀ (xs : List β) (init : List α), init.length ≤ N →
      xs.foldl (fun sl a => (g a :: sl).take N) init =
        ((xs.map g).reverse ++ init).take N := by
  intro xs
  induction xs with
  | nil =>
      intro init h
      simp only [List.foldl_nil, List.map_nil, List.reverse_nil,
        List.nil_append]
      exact (List.take_of_length_le h).symm
  | cons a xs ih =>
      intro init h
      simp only [List.foldl_cons, List.map_cons, List.reverse_cons,
        List.append_assoc, List.singleton_append]
      rw [ih ((g a :: init).take N) (List.length_take_le ..)]
      exact take_append_take N (xs.map g).reverse N (g a :: init) (Nat.le_refl N)

/-! ## Claims -/

/-- C1 (amended): for a record that is an object with truthy `id` and
`timestamp` fields and whose sequences contain no `undefined` element,
the head of a `Load` following a `Save` with cloud mode inactive is the
record with every `undefined`-valued field recursively removed; moreover
`sanitizeForFirestore` equals exactly that removal and leaves no
`undefined`-valued field in its output.  (The unamended claim fails when
a sequence inside the record contains the `undefined` sentinel: the JSON
round trip through the local store turns such an element into `null`; see
the counterexample.) -/
theorem c1_local_roundtrip_strips_undef (o : JObj) (uuid : String)
    (now : Int) (slot : JArr)
    (hid : jsTruthy (objGet o "id") = true)
    (hts : jsTruthy (objGet o "timestamp") = true)
    (hseq : noUndefInSeqV (.jobj o) = true) :
    JArr.headOpt (getHistoryJ false (.error ())
        (saveToHistoryLocalJ (.jobj o) uuid now slot)) =
      some (specStripUndefV (.jobj o))
    ∧ sanitizeV (.jobj o) = specStripUndefV (.jobj o)
    ∧ noUndefFieldV (sanitizeV (.jobj o)) = true := by
  refine ⟨?_, sanitize_eq_specStripV _, noUndefField_sanitizeV _⟩
  have h1 : JArr.headOpt (getHistoryJ false (.error ())
      (saveToHistoryLocalJ (.jobj o) uuid now slot)) =
      some (jroundV (.jobj o)) := by
    simp only [saveToHistoryLocalJ]
    rw [mkNewEntryJ_truthy o uuid now hid hts]
    rfl
  rw [h1, jround_eq_sanitizeV _ hseq, sanitize_eq_specStripV]

/-- Witness for C1: a concrete record with a truthy id and timestamp and
an `undefined`-valued optional field, saved and loaded with cloud mode
inactive. -/
theorem c1_witness :
    JArr.headOpt (getHistoryJ false (.error ())
        (saveToHistoryLocalJ
          (.jobj (.cons "id" (.jstr "A") (.cons "timestamp" (.jnum 1)
            (.cons "note" .undef .nil)))) "u" 7 .nil)) =
      some (specStripUndefV (.jobj (.cons "id" (.jstr "A")
        (.cons "timestamp" (.jnum 1) (.cons "note" .undef .nil)))))
    ∧ sanitizeV (.jobj (.cons "id" (.jstr "A") (.cons "timestamp" (.jnum 1)
        (.cons "note" .undef .nil)))) =
      specStripUndefV (.jobj (.cons "id" (.jstr "A")
        (.cons "timestamp" (.jnum 1) (.cons "note" .undef .nil))))
    ∧ noUndefFieldV (sanitizeV (.jobj (.cons "id" (.jstr "A")
        (.cons "timestamp" (.jnum 1) (.cons "note" .undef .nil)))))
      = true :=
  c1_local_roundtrip_strips_undef
    (.cons "id" (.jstr "A") (.cons "timestamp" (.jnum 1)
      (.cons "note" .undef .nil))) "u" 7 .nil rfl rfl rfl

/-- Record refuting C1 as stated: an object with truthy `id` and
`timestamp` whose field `xs` is a sequence containing the `undefined`
sentinel. -/
def cexRecordC1 : JVal :=
  .jobj (.cons "id" (.jstr "A") (.cons "timestamp" (.jnum 1)
    (.cons "xs" (.jarr (.cons .undef .nil)) .nil)))

/-- Counterexample to C1 as stated: saving `cexRecordC1` with cloud mode
inactive and loading yields a head record whose `xs` sequence holds
`null`, which is deep-equal neither to the saved record with every
`undefined`-valued field removed (the sequence element is not a field, so
that removal is the record itself, holding `undefined`), nor to the
variant with the `undefined` element also removed, nor to
`sanitizeForFirestore` of the record. -/
theorem c1_counterexample :
    JArr.headOpt (getHistoryJ false (.error ())
        (saveToHistoryLocalJ cexRecordC1 "u" 7 .nil)) =
      some (.jobj (.cons "id" (.jstr "A") (.cons "timestamp" (.jnum 1)
        (.cons "xs" (.jarr (.cons .jnull .nil)) .nil))))
    ∧ JArr.headOpt (getHistoryJ false (.error ())
        (saveToHistoryLocalJ cexRecordC1 "u" 7 .nil)) ≠
      some (specStripUndefV cexRecordC1)
    ∧ JArr.headOpt (getHistoryJ false (.error ())
        (saveToHistoryLocalJ cexRecordC1 "u" 7 .nil)) ≠
      some (.jobj (.cons "id" (.jstr "A") (.cons "timestamp" (.jnum 1)
        (.cons "xs" (.jarr .nil) .nil))))
    ∧ JArr.headOpt (getHistoryJ false (.error ())
        (saveToHistoryLocalJ cexRecordC1 "u" 7 .nil)) ≠
      some (sanitizeV cexRecordC1) := by
  refine ⟨rfl, ?_, ?_, ?_⟩ <;> decide

/-- C2 (confirmed): for every kind, when cloud mode is active and the
cloud query yields at least one record, `Load` returns exactly the cloud
result; in every other case — cloud empty, cloud read throwing (caught
inside `getFromDatabase`), or cloud mode inactive — `Load` returns the
local fallback collection for the kind (empty when no local data exists),
and the function is total, so no cloud read failure reaches the caller. -/
theorem c2_load_cloud_precedence (k : HKind)
    (localStore : String → Option (List RecM)) :
    (∀ docs : List RecM, docs ≠ [] →
        loadKindM k true (.ok docs) localStore = docs)
    ∧ loadKindM k true (.ok []) localStore =
        (localStore (localKeyOf k)).getD []
    ∧ loadKindM k true (.error ()) localStore =
        (localStore (localKeyOf k)).getD []
    ∧ ∀ outcome, loadKindM k false outcome localStore =
        (localStore (localKeyOf k)).getD [] := by
  refine ⟨?_, ?_, ?_, ?_⟩
  · intro docs h
    simp [loadKindM, getFromDatabaseM, List.length_pos.mpr h]
  · simp [loadKindM, getFromDatabaseM]
  · simp [loadKindM, getFromDatabaseM]
  · intro outcome
    simp [loadKindM, getFromDatabaseM]

/-- Witness for C2: a non-empty cloud result wins over local data; with
cloud mode inactive the local data is returned. -/
theorem c2_witness :
    loadKindM .analyses true (.ok [⟨"A", 1, 0⟩]) (fun _ => none) =
      [⟨"A", 1, 0⟩]
    ∧ loadKindM .chats false (.ok [⟨"A", 1, 0⟩])
        (fun _ => some [⟨"B", 2, 1⟩]) = [⟨"B", 2, 1⟩] :=
  ⟨(c2_load_cloud_precedence .analyses (fun _ => none)).1 [⟨"A", 1, 0⟩]
      (by simp),
   (c2_load_cloud_precedence .chats
      (fun _ => some [⟨"B", 2, 1⟩])).2.2.2 (.ok [⟨"A", 1, 0⟩])⟩

theorem keepPart_eq_specKeepPart : keepPart = specKeepPart := by
  funext p
  obtain ⟨text, inl⟩ := p
  cases text <;> rfl

theorem removeLeadingNonUser_eq_dropWhile (l : List Turn) :
    removeLeadingNonUser l = l.dropWhile (fun t => t.role != "user") := by
  induction l with
  | nil => rfl
  | cons t rest ih =>
      simp only [removeLeadingNonUser, List.dropWhile_cons]
      by_cases h : t.role = "user"
      · simp [h]
      · simp [h, bne_iff_ne, ih]

theorem lengthPos_eq_neNil (t : Turn) :
    decide (0 < t.parts.length) = (t.parts != []) := by
  cases hp : t.parts <;> simp [hp]

/-- History input of the worked example in the claim. -/
def c3ExampleInput : List Turn :=
  [⟨"model", []⟩,
   ⟨"user", [⟨some "hi", none⟩]⟩,
   ⟨"model", [⟨some "hello", none⟩]⟩]

/-- Normalized history the claim expects for the worked example. -/
def c3ExampleOutput : List Turn :=
  [⟨"user", [⟨some "hi", none⟩]⟩,
   ⟨"model", [⟨some "hello", none⟩]⟩]

/-- C3 (confirmed): the history normalization of `sendChatMessage` is
exactly the three-step rule of the claim — remove parts with neither
non-whitespace text nor image content, drop turns whose part list became
empty, then drop leading turns until the first one has role user — and on
the claim's worked example it drops exactly the empty leading model turn.
No other correction is applied (in particular consecutive same-role turns
survive), since the two sides are equal as functions of the history. -/
theorem c3_history_normalization :
    normalizeHistory c3ExampleInput = c3ExampleOutput
    ∧ ∀ h : List Turn, normalizeHistory h = specNormalizeHistory h := by
  constructor
  · decide
  · intro h
    unfold normalizeHistory specNormalizeHistory validHistoryOf
    rw [keepPart_eq_specKeepPart, removeLeadingNonUser_eq_dropWhile]
    congr 1
    apply List.filter_congr
    intro t _
    exact lengthPos_eq_neNil t

/-- C4 (amended): calling `Save` twice with the same truthy `id` but
different field values leaves exactly one stored record with the values
of the second call on the cloud path (for every kind — `saveToHistory`
and `saveChatSession` write through the same `setDoc` keyed by `id`), and
on the local path for chat sessions (update-in-place).  The local mirrors
of analyses and generations instead prepend unconditionally, so there the
second save leaves two entries for the id (see the counterexample). -/
theorem c4_overwrite_by_id (k : String) (hk : k ≠ "") (r1 r2 : RecM)
    (h1 : r1.id = k) (h2 : r2.id = k)
    (ht1 : r1.timestamp ≠ 0) (ht2 : r2.timestamp ≠ 0)
    (u1 u2 a1 a2 : String) (n1 n2 : Int) (slot1 slot2 : List RecM)
    (s1 s2 : RecM) (hs : s1.id = s2.id) (hsid : s2.id ≠ "") :
    (saveToHistoryM true false u2 n2 a2
        (saveToHistoryM true false u1 n1 a1 [] slot1 r1).1 slot2 r2).1 =
      [(k, r2)]
    ∧ (saveChatSessionM true false a2
        (saveChatSessionM true false a1 [] slot1 s1).1 slot2 s2).1 =
      [(s2.id, s2)]
    ∧ (saveChatSessionM false false a2 []
        ((saveChatSessionM false false a1 [] [] s1).2) s2).2 = [s2] := by
  have hne1 : r1.id ≠ "" := h1 ▸ hk
  have hne2 : r2.id ≠ "" := h2 ▸ hk
  have e1 : mkNewEntryM r1 u1 n1 = r1 := by
    simp [mkNewEntryM, bne_iff_ne, hne1, ht1]
  have e2 : mkNewEntryM r2 u2 n2 = r2 := by
    simp [mkNewEntryM, bne_iff_ne, hne2, ht2]
  refine ⟨?_, ?_, ?_⟩
  · simp [saveToHistoryM, saveToDatabaseM, setDocM, e1, e2, h1, h2,
      bne_iff_ne, hk]
  · simp [saveChatSessionM, saveToDatabaseM, setDocM, hs, bne_iff_ne, hsid]
  · simp [saveChatSessionM, saveToDatabaseM, hs, List.findIdx?]

/-- Counterexample to C4 as stated: two `saveToHistory` calls with the
same id `A` against the local fallback (cloud mode inactive) leave two
local entries for `A`, not one — the analyses mirror prepends instead of
updating in place. -/
theorem c4_counterexample :
    (saveToHistoryM false false "u2" 6 "k2" []
        ((saveToHistoryM false false "u1" 5 "k1" [] []
          ⟨"A", 1, 1⟩).2) ⟨"A", 2, 2⟩).2 =
      [⟨"A", 2, 2⟩, ⟨"A", 1, 1⟩]
    ∧ (((saveToHistoryM false false "u2" 6 "k2" []
        ((saveToHistoryM false false "u1" 5 "k1" [] []
          ⟨"A", 1, 1⟩).2) ⟨"A", 2, 2⟩).2).filter
        (fun x => x.id == "A")).length = 2 := by
  refine ⟨?_, ?_⟩ <;> decide

/-- Witness for C4: the amended overwrite behaviour at concrete records
with id `S1`. -/
theorem c4_witness :
    (saveToHistoryM true false "u2" 6 "a2"
        (saveToHistoryM true false "u1" 5 "a1" [] []
          ⟨"S1", 1, 1⟩).1 [] ⟨"S1", 2, 2⟩).1 = [("S1", ⟨"S1", 2, 2⟩)]
    ∧ (saveChatSessionM true false "a2"
        (saveChatSessionM true false "a1" [] [] ⟨"S1", 1, 1⟩).1 []
        ⟨"S1", 2, 2⟩).1 = [("S1", ⟨"S1", 2, 2⟩)]
    ∧ (saveChatSessionM false false "a2" []
        ((saveChatSessionM false false "a1" [] [] ⟨"S1", 1, 1⟩).2)
        ⟨"S1", 2, 2⟩).2 = [⟨"S1", 2, 2⟩] :=
  c4_overwrite_by_id "S1" (by decide) ⟨"S1", 1, 1⟩ ⟨"S1", 2, 2⟩ rfl rfl
    (by decide) (by decide) "u1" "u2" "a1" "a2" 5 6 [] []
    ⟨"S1", 1, 1⟩ ⟨"S1", 2, 2⟩ rfl (by decide)

/-- Local analyses collection after a sequence of `saveToHistory` calls
(cloud mode inactive); each input carries the record together with the
fresh uuid and current time of its call. -/
def localAnalysesAfter (inputs : List (RecM × String × Int))
    (slot : List RecM) : List RecM :=
  inputs.foldl
    (fun sl x => (saveToHistoryM false false x.2.1 x.2.2 "k" [] sl x.1).2)
    slot

/-- Local generations collection after a sequence of `saveGeneration`
calls (cloud mode inactive). -/
def localGenerationsAfter (gens : List RecM) (slot : List RecM) :
    List RecM :=
  gens.foldl (fun sl g => (saveGenerationM false false "k" [] sl g).2) slot

/-- C5 (confirmed): after any sequence of `saveToHistory` calls from an
empty local store, the local analyses collection is exactly the ten most
recent entries, most-recent-first (each save prepends), hence holds at
most 10 records; the generations collection behaves the same with cap 10;
and a locally appended (not updated-in-place) chat session list is capped
at 5. -/
theorem c5_retention_caps :
    (∀ inputs : List (RecM × String × Int),
        localAnalysesAfter inputs [] =
          ((inputs.map (fun x => mkNewEntryM x.1 x.2.1 x.2.2)).reverse).take 10
        ∧ (localAnalysesAfter inputs []).length ≤ 10)
    ∧ (∀ gens : List RecM,
        localGenerationsAfter gens [] = gens.reverse.take 10
        ∧ (localGenerationsAfter gens []).length ≤ 10)
    ∧ (∀ (s : RecM) (slot : List RecM) (a : String) (c : CloudStoreM)
        (ca wt : Bool),
        slot.findIdx? (fun x => x.id == s.id) = none →
          (saveChatSessionM ca wt a c slot s).2 = (s :: slot).take 5
          ∧ ((saveChatSessionM ca wt a c slot s).2).length ≤ 5) := by
  refine ⟨?_, ?_, ?_⟩
  · intro inputs
    have e : localAnalysesAfter inputs [] =
        ((inputs.map (fun x => mkNewEntryM x.1 x.2.1 x.2.2)).reverse).take 10 := by
      have := foldl_prepend_take
        (fun x : RecM × String × Int => mkNewEntryM x.1 x.2.1 x.2.2) 10
        inputs [] (by simp)
      simpa [localAnalysesAfter, saveToHistoryM] using this
    exact ⟨e, by rw [e]; exact List.length_take_le ..⟩
  · intro gens
    have e : localGenerationsAfter gens [] = gens.reverse.take 10 := by
      have := foldl_prepend_take (fun g : RecM => g) 10 gens [] (by simp)
      simpa [localGenerationsAfter, saveGenerationM] using this
    exact ⟨e, by rw [e]; exact List.length_take_le ..⟩
  · intro s slot a c ca wt h
    have e : (saveChatSessionM ca wt a c slot s).2 = (s :: slot).take 5 := by
      simp [saveChatSessionM, h]
    exact ⟨e, by rw [e]; exact List.length_take_le ..⟩

/-- Eleven distinct analysis records with their save-time parameters. -/
def elevenAnalyses : List (RecM × String × Int) :=
  [(⟨"i1", 1, 1⟩, "u", 30), (⟨"i2", 2, 2⟩, "u", 30),
   (⟨"i3", 3, 3⟩, "u", 30), (⟨"i4", 4, 4⟩, "u", 30),
   (⟨"i5", 5, 5⟩, "u", 30), (⟨"i6", 6, 6⟩, "u", 30),
   (⟨"i7", 7, 7⟩, "u", 30), (⟨"i8", 8, 8⟩, "u", 30),
   (⟨"i9", 9, 9⟩, "u", 30), (⟨"i10", 10, 10⟩, "u", 30),
   (⟨"i11", 11, 11⟩, "u", 30)]

/-- Witness for C5: eleven distinct saves leave the ten most recent
records, most-recent-first, and an appended chat session list respects
the cap of 5. -/
theorem c5_witness :
    localAnalysesAfter elevenAnalyses [] =
      ((elevenAnalyses.map (fun x => mkNewEntryM x.1 x.2.1 x.2.2)).reverse).take 10
    ∧ (localAnalysesAfter elevenAnalyses []).length ≤ 10
    ∧ (saveChatSessionM false false "k" [] [] ⟨"S", 1, 1⟩).2 =
        [⟨"S", 1, 1⟩] :=
  ⟨(c5_retention_caps.1 elevenAnalyses).1,
   (c5_retention_caps.1 elevenAnalyses).2,
   (c5_retention_caps.2.2 ⟨"S", 1, 1⟩ [] "k" [] false false rfl).1⟩

/-- Parse function yielding a result whose optional `id`, `timestamp` and
`searchLinks` are all absent, as the strict response schema of
`analyzeProductImage` produces (the schema requests none of them). -/
def parseStubM : String → Option AnalysisResultM :=
  fun _ => some ⟨none, none, none, "parsed"⟩

/-- C6 (amended): `analyzeProductImage` assigns `searchLinks` exactly when
the grounding-chunk list of the response is present: when the optional
chain to `groundingChunks` yields nothing, the parsed result is returned
with `searchLinks` untouched (hence absent), and when the list is present
— even empty, since a present empty array is truthy — `searchLinks` is
set to exactly the citations having a web URI, mapped to title/uri pairs
in order.  (The unamended claim fails on a response carrying a present
but empty chunk list: it yields `searchLinks` as a present empty list;
see the counterexample.) -/
theorem c6_searchlinks_assignment (t : String) (ht : t ≠ "")
    (parse : String → Option AnalysisResultM) (r : AnalysisResultM)
    (hp : parse t = some r) :
    analyzeProductImageM ⟨some t, none⟩ parse = .ok r
    ∧ ∀ cs : List Chunk,
        analyzeProductImageM ⟨some t, some cs⟩ parse =
          .ok { r with
                searchLinks :=
                  some ((cs.filter chunkHasWebUri).map chunkToLink) } := by
  constructor
  · simp [analyzeProductImageM, ht, hp]
  · intro cs
    simp [analyzeProductImageM, ht, hp]

/-- Counterexample to C6 as stated: a response whose text parses (with
`searchLinks` absent in the parse) and which carries zero grounding
citations, namely a present but empty chunk list, yields `searchLinks`
present as an empty list, not absent. -/
theorem c6_counterexample :
    analyzeProductImageM ⟨some "T", some []⟩ parseStubM =
      .ok ⟨none, none, some [], "parsed"⟩
    ∧ (⟨none, none, some [], "parsed"⟩ : AnalysisResultM).searchLinks ≠
        none := by
  exact ⟨rfl, by decide⟩

/-- Witness for C6: with the chunk list absent the parsed result comes
back with `searchLinks` absent; with a present list holding one citation
with a web URI and one without, `searchLinks` holds exactly the one
web-URI citation. -/
theorem c6_witness :
    analyzeProductImageM ⟨some "T", none⟩ parseStubM =
      .ok ⟨none, none, none, "parsed"⟩
    ∧ analyzeProductImageM
        ⟨some "T", some [⟨some ⟨"t1", "u1"⟩⟩, ⟨none⟩]⟩ parseStubM =
      .ok ⟨none, none, some [⟨"t1", "u1"⟩], "parsed"⟩ :=
  ⟨(c6_searchlinks_assignment "T" (by decide) parseStubM
      ⟨none, none, none, "parsed"⟩ rfl).1,
   (c6_searchlinks_assignment "T" (by decide) parseStubM
      ⟨none, none, none, "parsed"⟩ rfl).2 [⟨some ⟨"t1", "u1"⟩⟩, ⟨none⟩]⟩

/-- Tests whether a response part carries truthy inline image data, the
condition of the scan in `generateCustomImage`. -/
def partHasImage (p : GPart) : Bool :=
  match p.inlineData with
  | some d => d.data != ""
  | none => false

theorem findInlineImage_eq_none :
    ∀ parts : List GPart, (∀ p ∈ parts, partHasImage p = false) →
      findInlineImage parts = none := by
  intro parts
  induction parts with
  | nil => intro _; rfl
  | cons p rest ih =>
      intro h
      have hp := h p (List.mem_cons_self ..)
      cases hd : p.inlineData with
      | none =>
          simp only [findInlineImage, hd]
          exact ih (fun q hq => h q (List.mem_cons_of_mem _ hq))
      | some d =>
          have : (d.data != "") = false := by
            simpa [partHasImage, hd] using hp
          simp only [findInlineImage, hd, this, Bool.false_eq_true, if_false]
          exact ih (fun q hq => h q (List.mem_cons_of_mem _ hq))

theorem findInlineImage_append (pre : List GPart)
    (hpre : ∀ p ∈ pre, partHasImage p = false) (mt : Option String)
    (data : String) (hdata : data ≠ "") (rest : List GPart) :
    findInlineImage (pre ++ ⟨some ⟨mt, data⟩⟩ :: rest) =
      some ("data:" ++ mimeOrDefault mt ++ ";base64," ++ data) := by
  induction pre with
  | nil =>
      simp [findInlineImage, bne_iff_ne, hdata]
  | cons p pre2 ih =>
      have hp := hpre p (List.mem_cons_self ..)
      have ih2 := ih (fun q hq => hpre q (List.mem_cons_of_mem _ hq))
      cases hd : p.inlineData with
      | none => simpa [findInlineImage, hd] using ih2
      | some d =>
          have : (d.data != "") = false := by
            simpa [partHasImage, hd] using hp
          simpa [findInlineImage, hd, this] using ih2

/-- C7 (confirmed): `generateCustomImage` returns the absence value
(`null`) — without raising — whenever no part of any candidate carries
inline image data (in particular when the candidate list is absent or
empty), and when the first candidate does carry inline image data it
returns the first such part encoded as a data URI with the part's mime
type, defaulting to `image/png` when that is unspecified. -/
theorem c7_generate_image_absence :
    generateCustomImageM none = none
    ∧ (∀ cs : List Candidate,
        (∀ c ∈ cs, ∀ p ∈ c.parts, partHasImage p = false) →
          generateCustomImageM (some cs) = none)
    ∧ (∀ (pre : List GPart), (∀ p ∈ pre, partHasImage p = false) →
        ∀ (mt : Option String) (data : String), data ≠ "" →
        ∀ (rest : List GPart) (others : List Candidate),
          generateCustomImageM
              (some (⟨pre ++ ⟨some ⟨mt, data⟩⟩ :: rest⟩ :: others)) =
            some ("data:" ++ mimeOrDefault mt ++ ";base64," ++ data)) := by
  refine ⟨rfl, ?_, ?_⟩
  · intro cs h
    cases cs with
    | nil => rfl
    | cons c rest =>
        simp only [generateCustomImageM]
        exact findInlineImage_eq_none c.parts
          (fun p hp => h c (List.mem_cons_self ..) p hp)
  · intro pre hpre mt data hdata rest others
    simp only [generateCustomImageM]
    exact findInlineImage_append pre hpre mt data hdata rest

/-- Witness for C7: a candidate whose parts carry no inline data yields
`none`; a first candidate with a data-less part followed by an image part
with unspecified mime type yields the data URI with the `image/png`
default. -/
theorem c7_witness :
    generateCustomImageM (some [⟨[⟨none⟩]⟩]) = none
    ∧ generateCustomImageM
        (some [⟨[⟨none⟩, ⟨some ⟨none, "IMG"⟩⟩]⟩]) =
      some "data:image/png;base64,IMG" :=
  ⟨c7_generate_image_absence.2.1 [⟨[⟨none⟩]⟩] (by decide),
   c7_generate_image_absence.2.2 [⟨none⟩] (by decide) none "IMG"
     (by decide) [] []⟩

/-- C8 (amended): `analyzeProductImage` returns the parsed result with
`id` and `timestamp` exactly as parsed — it assigns neither; the
defaulting happens when the result is saved: `saveToHistory` stores an
entry whose `id` is the freshly generated identifier when the record's is
falsy (and the record's own otherwise) and whose `timestamp` is the
current time when the record's is falsy (and the record's own otherwise).
`analyzeProductImage` fails with an error when the model returns no text
body (absent or empty text).  (The unamended claim attributes the
assignment to `AnalyzeProduct` itself, which the counterexample refutes:
a successful analysis of a response whose JSON carries no `id` returns a
result with no `id`.) -/
theorem c8_id_timestamp_assignment (t : String) (ht : t ≠ "")
    (parse : String → Option AnalysisResultM) (r : AnalysisResultM)
    (hp : parse t = some r) (ch : Option (List Chunk))
    (rec : RecM) (uuid : String) (now : Int)
    (ca wt : Bool) (ak : String) (cloud : CloudStoreM)
    (slot : List RecM) :
    (∀ out, analyzeProductImageM ⟨some t, ch⟩ parse = .ok out →
        out.id = r.id ∧ out.timestamp = r.timestamp)
    ∧ ((saveToHistoryM ca wt uuid now ak cloud slot rec).2).head? =
        some (mkNewEntryM rec uuid now)
    ∧ (rec.id = "" → (mkNewEntryM rec uuid now).id = uuid)
    ∧ (rec.id ≠ "" → (mkNewEntryM rec uuid now).id = rec.id)
    ∧ (rec.timestamp = 0 → (mkNewEntryM rec uuid now).timestamp = now)
    ∧ (rec.timestamp ≠ 0 →
        (mkNewEntryM rec uuid now).timestamp = rec.timestamp)
    ∧ analyzeProductImageM ⟨none, ch⟩ parse =
        .error "No response from Gemini"
    ∧ analyzeProductImageM ⟨some "", ch⟩ parse =
        .error "No response from Gemini" := by
  refine ⟨?_, ?_, ?_, ?_, ?_, ?_, rfl, rfl⟩
  · intro out hout
    cases ch with
    | none =>
        simp [analyzeProductImageM, ht, hp] at hout
        simp [← hout]
    | some cs =>
        simp [analyzeProductImageM, ht, hp] at hout
        simp [← hout]
  · simp [saveToHistoryM]
  · intro h
    simp [mkNewEntryM, h]
  · intro h
    simp [mkNewEntryM, bne_iff_ne, h]
  · intro h
    simp [mkNewEntryM, h]
  · intro h
    simp [mkNewEntryM, bne_iff_ne, h]

/-- Counterexample to C8 as stated: a successful `analyzeProductImage`
call whose response text parses to a result without an `id` yields a
result that carries no `id` (and no `timestamp`) — the identifiers are
not assigned by `AnalyzeProduct`. -/
theorem c8_counterexample :
    analyzeProductImageM ⟨some "T", none⟩ parseStubM =
      .ok ⟨none, none, none, "parsed"⟩
    ∧ (⟨none, none, none, "parsed"⟩ : AnalysisResultM).id = none
    ∧ (⟨none, none, none, "parsed"⟩ : AnalysisResultM).timestamp = none := by
  exact ⟨rfl, rfl, rfl⟩

/-- Witness for C8: the amended behaviour at a concrete record without an
id and timestamp, saved with a fresh uuid at a concrete time. -/
theorem c8_witness :
    ((saveToHistoryM false false "fresh-uuid" 42 "k" [] []
        ⟨"", 0, 7⟩).2).head? = some (mkNewEntryM ⟨"", 0, 7⟩ "fresh-uuid" 42)
    ∧ (mkNewEntryM ⟨"", 0, 7⟩ "fresh-uuid" 42).id = "fresh-uuid"
    ∧ (mkNewEntryM ⟨"", 0, 7⟩ "fresh-uuid" 42).timestamp = 42
    ∧ analyzeProductImageM ⟨none, none⟩ parseStubM =
        .error "No response from Gemini" :=
  ⟨(c8_id_timestamp_assignment "T" (by decide) parseStubM
      ⟨none, none, none, "parsed"⟩ rfl none ⟨"", 0, 7⟩ "fresh-uuid" 42
      false false "k" [] []).2.1,
   (c8_id_timestamp_assignment "T" (by decide) parseStubM
      ⟨none, none, none, "parsed"⟩ rfl none ⟨"", 0, 7⟩ "fresh-uuid" 42
      false false "k" [] []).2.2.1 rfl,
   (c8_id_timestamp_assignment "T" (by decide) parseStubM
      ⟨none, none, none, "parsed"⟩ rfl none ⟨"", 0, 7⟩ "fresh-uuid" 42
      false false "k" [] []).2.2.2.2.1 rfl,
   (c8_id_timestamp_assignment "T" (by decide) parseStubM
      ⟨none, none, none, "parsed"⟩ rfl none ⟨"", 0, 7⟩ "fresh-uuid" 42
      false false "k" [] []).2.2.2.2.2.2.1⟩

/-- C9 (confirmed): none of the three `Save` operations lets a cloud
write failure reach its caller — each is total, the failing write leaves
the cloud store unchanged (the error is caught and logged inside
`saveToDatabase`), and the local mirror after `Save` is identical whether
the cloud write failed or succeeded. -/
theorem c9_cloud_write_failure_isolated (ca : Bool) (uuid : String)
    (now : Int) (ak : String) (cloud : CloudStoreM) (slot : List RecM)
    (r : RecM) :
    ((saveToHistoryM ca true uuid now ak cloud slot r).2 =
      (saveToHistoryM ca false uuid now ak cloud slot r).2)
    ∧ (saveToHistoryM ca true uuid now ak cloud slot r).1 = cloud
    ∧ ((saveChatSessionM ca true ak cloud slot r).2 =
        (saveChatSessionM ca false ak cloud slot r).2)
    ∧ (saveChatSessionM ca true ak cloud slot r).1 = cloud
    ∧ ((saveGenerationM ca true ak cloud slot r).2 =
        (saveGenerationM ca false ak cloud slot r).2)
    ∧ (saveGenerationM ca true ak cloud slot r).1 = cloud := by
  refine ⟨rfl, ?_, rfl, ?_, rfl, ?_⟩ <;>
    simp [saveToHistoryM, saveChatSessionM, saveGenerationM,
      saveToDatabaseM]

/-- C10 (confirmed): when the saved chat session's id already occurs in
the local fallback list, the list after `saveChatSession` has the same
length, the entry at the position found for that id is replaced by the
session, every other position is unchanged, and no retention cap is
re-applied (the length is preserved even beyond 5). -/
theorem c10_chat_update_in_place (ca wt : Bool) (ak : String)
    (cloud : CloudStoreM) (slot : List RecM) (s : RecM) (i : Nat)
    (h : slot.findIdx? (fun x => x.id == s.id) = some i) :
    (saveChatSessionM ca wt ak cloud slot s).2 = slot.set i s
    ∧ ((saveChatSessionM ca wt ak cloud slot s).2).length = slot.length
    ∧ ∀ j, j ≠ i →
        ((saveChatSessionM ca wt ak cloud slot s).2)[j]? = slot[j]? := by
  have e : (saveChatSessionM ca wt ak cloud slot s).2 = slot.set i s := by
    simp [saveChatSessionM, h]
  refine ⟨e, ?_, ?_⟩
  · rw [e, List.length_set]
  · intro j hj
    rw [e, List.getElem?_set_ne (Ne.symm hj)]

/-- Witness for C10: a six-entry local list (beyond the append cap of 5)
whose third entry has the saved session's id keeps its length and its
other entries. -/
theorem c10_witness :
    (saveChatSessionM false false "k" []
        [⟨"S1", 1, 1⟩, ⟨"S2", 2, 2⟩, ⟨"S3", 3, 3⟩, ⟨"S4", 4, 4⟩,
         ⟨"S5", 5, 5⟩, ⟨"S6", 6, 6⟩] ⟨"S3", 9, 9⟩).2 =
      ([⟨"S1", 1, 1⟩, ⟨"S2", 2, 2⟩, ⟨"S3", 3, 3⟩, ⟨"S4", 4, 4⟩,
        ⟨"S5", 5, 5⟩, ⟨"S6", 6, 6⟩] : List RecM).set 2 ⟨"S3", 9, 9⟩
    ∧ ((saveChatSessionM false false "k" []
        [⟨"S1", 1, 1⟩, ⟨"S2", 2, 2⟩, ⟨"S3", 3, 3⟩, ⟨"S4", 4, 4⟩,
         ⟨"S5", 5, 5⟩, ⟨"S6", 6, 6⟩] ⟨"S3", 9, 9⟩).2).length = 6
    ∧ ∀ j, j ≠ 2 →
        ((saveChatSessionM false false "k" []
          [⟨"S1", 1, 1⟩, ⟨"S2", 2, 2⟩, ⟨"S3", 3, 3⟩, ⟨"S4", 4, 4⟩,
           ⟨"S5", 5, 5⟩, ⟨"S6", 6, 6⟩] ⟨"S3", 9, 9⟩).2)[j]? =
        ([⟨"S1", 1, 1⟩, ⟨"S2", 2, 2⟩, ⟨"S3", 3, 3⟩, ⟨"S4", 4, 4⟩,
          ⟨"S5", 5, 5⟩, ⟨"S6", 6, 6⟩] : List RecM)[j]? :=
  c10_chat_update_in_place false false "k" []
    [⟨"S1", 1, 1⟩, ⟨"S2", 2, 2⟩, ⟨"S3", 3, 3⟩, ⟨"S4", 4, 4⟩,
     ⟨"S5", 5, 5⟩, ⟨"S6", 6, 6⟩] ⟨"S3", 9, 9⟩ 2 (by decide)

end DealFlow
